import Mathlib

/-!
Shallow embedding of `src/YouTubeDownloader.py` (class `YouTubeVideo` and the
CLI `main`), together with proofs of the specification claims.

Modelling choices (each definition carries a doc comment tying it to the
source):

* The external collaborators (pytube's stream enumeration/download, the
  `ffmpeg` process, the wall clock) are opaque oracles packaged in `Env`.
  Each oracle is indexed by a per-kind call counter held in the state `St`.
* The filesystem is a list of existing directories and a list of existing
  files; `pathlib.Path` values are modelled by `PyPath` triples
  (directory, stem, suffix), so `Path.suffix` is the stored suffix field.
* Every observable action (stream enumeration, a download, a subprocess
  invocation, printing, invoking one of the three save operations) is
  recorded in an event trace, newest event first.
* Python exceptions are an `Except Err` result; the `try/finally` blocks of
  the source are translated by inlining the `finally` cleanup on every exit
  path of the guarded region.
-/

namespace YTD

/-- Model of a pytube `Stream` descriptor: the fields of the remote stream
metadata that `YouTubeDownloader.py` reads.  `resolution` holds the numeric
part of pytube's `"1080p"`-style string (the source parses it with
`int(stream.resolution[:-1])`); `fps` and `bitrate` are numeric in pytube
already. -/
structure Stream where
  mime_type : String
  is_adaptive : Bool
  video_codec : String
  audio_codec : String
  resolution : Nat
  fps : Nat
  bitrate : Nat
  deriving DecidableEq

/-- Model of a `pathlib.Path`: a parent directory string, a stem, and a
suffix.  `name` is `stem ++ ext` and Python's `Path.suffix` accessor is the
`ext` field (paths are always built with the suffix split off, mirroring
pathlib's normalisation where `suffix` is `""` or starts with a dot). -/
structure PyPath where
  dir : String
  stem : String
  ext : String
  deriving DecidableEq

/-- Python's `Path.suffix`. -/
def PyPath.suffix (p : PyPath) : String := p.ext

/-- Rendering of a path as the string interpolated into ffmpeg commands
(`f"... {tmp_audio_file} ..."`); paths are assumed whitespace-free so
`shlex.split` keeps each rendered path as one argument. -/
def PyPath.render (p : PyPath) : String := p.dir ++ "/" ++ p.stem ++ p.ext

/-- The filesystem: which directories and which files currently exist.
Membership in `files` models `Path.exists()` for files, membership in
`dirs` models `Path.exists()` for the parent directory. -/
structure FS where
  dirs : List String
  files : List PyPath
  deriving DecidableEq

/-- Model of `Path.unlink(missing_ok=True)`: removes the file if present; removing an
absent file is not an error (the function is total). -/
def FS.unlink (fs : FS) (p : PyPath) : FS :=
  { fs with files := fs.files.filter (fun q => decide (q ≠ p)) }

/-- Creation of a file (by a download or by ffmpeg writing its output). -/
def FS.create (fs : FS) (p : PyPath) : FS :=
  { fs with files := p :: fs.files }

theorem FS.mem_unlink {fs : FS} {p q : PyPath} :
    q ∈ (fs.unlink p).files ↔ q ∈ fs.files ∧ q ≠ p := by
  simp [FS.unlink, List.mem_filter]

theorem FS.mem_create {fs : FS} {p q : PyPath} :
    q ∈ (fs.create p).files ↔ q = p ∨ q ∈ fs.files := by
  simp [FS.create]

theorem FS.unlink_of_not_mem {fs : FS} {p : PyPath} (h : p ∉ fs.files) :
    (fs.unlink p).files = fs.files := by
  simp only [FS.unlink]
  exact List.filter_eq_self.mpr (fun q hq => by
    simp only [decide_eq_true_eq]
    rintro rfl
    exact h hq)

/-- The Python exceptions that can escape the translated code.
`fileNotFound`/`fileExists`/`typeError` are raised by `__validate_target`
(the spec's `DestinationParentMissingError` / `DestinationExistsError` /
`UnsupportedExtensionError`); `valueError` is the unpacking error of
`best_quality_stream, *_ = sorted(...)` on an empty candidate list (the
spec's `NoStreamFoundError`); `downloadError` stands for any exception
raised by `Stream.download`; `calledProcessError` is
`subprocess.CalledProcessError` from `check=True` (the spec's
`TranscodeError` / `MuxError`). -/
inductive Err
  | fileNotFound
  | fileExists
  | typeError
  | valueError
  | downloadError
  | calledProcessError
  deriving DecidableEq

deriving instance DecidableEq for Except

/-- Outcome of one `Stream.download` call: success (the file is written),
failure leaving a partial file behind, or failure leaving nothing. -/
inductive DlResult
  | success
  | failPartial
  | failClean
  deriving DecidableEq

/-- Observable events, newest first in the trace.  `streamsQuery` is the
network access of reading `self.video.streams`; `download` and `run` are the
download and `subprocess.run` calls; `printOut` is `print`;
`callVideo`/`callAudio`/`callCombined` record an invocation of
`save_video_as`/`save_audio_as`/`save_as` by its caller. -/
inductive Ev
  | streamsQuery
  | download (p : PyPath)
  | run (args : List String)
  | printOut (s : String)
  | callVideo (p : PyPath)
  | callAudio (p : PyPath)
  | callCombined (p : PyPath)
  deriving DecidableEq

/-- The opaque collaborators: the enumerated stream descriptors of the video,
the wall clock (`datetime.now().strftime('%Y%m%d_%H%M%S')`, one value per
call), the outcome of each successive download, and the exit status of each
successive subprocess invocation. -/
structure Env where
  streams : List Stream
  clock : Nat → String
  dl : Nat → DlResult
  px : Nat → Nat

/-- Program state: the filesystem, the per-oracle call counters, and the
event trace (newest first). -/
structure St where
  fs : FS
  clockTick : Nat
  dlTick : Nat
  pxTick : Nat
  trace : List Ev
  deriving DecidableEq

/-- Append an event to the trace. -/
def emit (st : St) (e : Ev) : St := { st with trace := e :: st.trace }

/-- Model of `Path(__file__).parent`: the fixed directory holding the script, where
all temporary files are created. -/
def scriptDir : String := "/app/src"

/-- Model of `YouTubeVideo.__validate_target`: parent directory must exist, the target
must not exist, and the target's suffix must be in the accepted pool —
checked in that order, raising `FileNotFoundError` / `FileExistsError` /
`TypeError` respectively.  Pure: no state change, no events. -/
def validate_target (target : PyPath) (extensions : List String) (fs : FS) :
    Except Err Unit :=
  if target.dir ∉ fs.dirs then .error .fileNotFound
  else if target ∈ fs.files then .error .fileExists
  else if target.suffix ∉ extensions then .error .typeError
  else .ok ()

/-! ## Stream selection

The source selects the best stream with
`best, *_ = sorted(candidates, key=..., reverse=True)`.  Python's `sorted`
is a stable sort; with `reverse=True` the result is ordered by key
descending and elements with equal keys keep their original order.  For a
total, transitive comparator a stable sort is extensionally unique, so we
model it by the stable descending insertion sort `pySortedDescBy`: an
element is inserted in front of the first element whose key does not exceed
its own (elements already placed come earlier in the original order, so
they stay in front on ties). -/

/-- Stable descending insertion of `x`: keep `y` in front of `x` exactly
when `le y x` is false, i.e. when `y`'s key is strictly greater. -/
def insort (le : α → α → Bool) (x : α) : List α → List α
  | [] => [x]
  | y :: ys => if le y x then x :: y :: ys else y :: insort le x ys

/-- Model of Python's `sorted(l, key=k, reverse=True)` where
`le a b` decides `k a <= k b`. -/
def pySortedDescBy (le : α → α → Bool) : List α → List α
  | [] => []
  | x :: xs => insort le x (pySortedDescBy le xs)

/-- Model of `best_quality_stream, *_ = sorted(candidates, key=..., reverse=True)`:
the head of the descending stable sort, `none` when the candidate list is
empty (in which case the source raises `ValueError`). -/
def selectBest (le : α → α → Bool) (l : List α) : Option α :=
  (pySortedDescBy le l).head?

/-- Reference definition: the first element of the list attaining the
maximal key (`none` on the empty list).  `selectBest` is proved equal to
this. -/
def firstArgmaxBy (le : α → α → Bool) : List α → Option α
  | [] => none
  | x :: xs =>
    match firstArgmaxBy le xs with
    | none => some x
    | some m => if le m x then some x else some m

/-- The `sort_criteria` key of `save_video_as`: resolution first, FPS second. -/
def sort_criteria (stream : Stream) : Nat × Nat :=
  (stream.resolution, stream.fps)

/-- Python's lexicographic comparison of two `(resolution, fps)` tuples. -/
def tupLe (a b : Nat × Nat) : Bool :=
  decide (a.1 < b.1) || (decide (a.1 = b.1) && decide (a.2 ≤ b.2))

/-- Comparator corresponding to `sorted(..., key=sort_criteria)`. -/
def videoLe (s t : Stream) : Bool := tupLe (sort_criteria s) (sort_criteria t)

/-- Comparator corresponding to `sorted(..., key=lambda s: s.bitrate)`. -/
def audioLe (s t : Stream) : Bool := decide (s.bitrate ≤ t.bitrate)

theorem tupLe_iff {a b : Nat × Nat} :
    tupLe a b = true ↔ a.1 < b.1 ∨ (a.1 = b.1 ∧ a.2 ≤ b.2) := by
  simp [tupLe]

theorem tupLe_total (a b : Nat × Nat) : tupLe a b = true ∨ tupLe b a = true := by
  simp only [tupLe_iff]
  omega

theorem tupLe_trans {a b c : Nat × Nat} (h1 : tupLe a b = true)
    (h2 : tupLe b c = true) : tupLe a c = true := by
  simp only [tupLe_iff] at h1 h2 ⊢
  omega

theorem videoLe_total (s t : Stream) : videoLe s t = true ∨ videoLe t s = true :=
  tupLe_total _ _

theorem videoLe_trans {s t u : Stream} (h1 : videoLe s t = true)
    (h2 : videoLe t u = true) : videoLe s u = true :=
  tupLe_trans h1 h2

theorem audioLe_total (s t : Stream) : audioLe s t = true ∨ audioLe t s = true := by
  simp only [audioLe, decide_eq_true_eq]
  omega

theorem audioLe_trans {s t u : Stream} (h1 : audioLe s t = true)
    (h2 : audioLe t u = true) : audioLe s u = true := by
  simp only [audioLe, decide_eq_true_eq] at h1 h2 ⊢
  omega

theorem insort_ne_nil (le : α → α → Bool) (x : α) (l : List α) :
    insort le x l ≠ [] := by
  cases l with
  | nil => simp [insort]
  | cons y ys =>
    simp only [insort]
    split <;> simp

theorem pySortedDescBy_eq_nil_iff (le : α → α → Bool) (l : List α) :
    pySortedDescBy le l = [] ↔ l = [] := by
  cases l with
  | nil => simp [pySortedDescBy]
  | cons x xs =>
    simp only [pySortedDescBy]
    exact ⟨fun h => absurd h (insort_ne_nil le x _), fun h => by cases h⟩

theorem firstArgmaxBy_eq_none_iff (le : α → α → Bool) (l : List α) :
    firstArgmaxBy le l = none ↔ l = [] := by
  cases l with
  | nil => simp [firstArgmaxBy]
  | cons x xs =>
    constructor
    · intro h
      rcases hxs : firstArgmaxBy le xs with _ | m <;>
        simp only [firstArgmaxBy, hxs] at h
      · cases h
      · split at h <;> cases h
    · intro h; cases h

/-- The head of the stable descending sort is the first argmax. -/
theorem selectBest_eq_firstArgmaxBy (le : α → α → Bool) (l : List α) :
    selectBest le l = firstArgmaxBy le l := by
  induction l with
  | nil => rfl
  | cons x xs ih =>
    rcases hs : pySortedDescBy le xs with _ | ⟨m, rest⟩
    · have hnil : xs = [] := (pySortedDescBy_eq_nil_iff le xs).mp hs
      subst hnil
      rfl
    · have ih' : firstArgmaxBy le xs = some m := by
        rw [← ih]
        simp [selectBest, hs]
      simp only [selectBest, pySortedDescBy, hs, firstArgmaxBy, ih', insort]
      split <;> simp

theorem firstArgmaxBy_mem {le : α → α → Bool} {l : List α} :
    ∀ {s : α}, firstArgmaxBy le l = some s → s ∈ l := by
  induction l with
  | nil => intro s h; cases h
  | cons x xs ih =>
    intro s h
    rcases hxs : firstArgmaxBy le xs with _ | m <;>
      simp only [firstArgmaxBy, hxs] at h
    · cases h
      exact List.mem_cons_self _ _
    · split at h <;> cases h
      · exact List.mem_cons_self _ _
      · exact List.mem_cons_of_mem _ (ih hxs)

/-- The first argmax dominates every list element (for a total, transitive
comparator). -/
theorem firstArgmaxBy_le {le : α → α → Bool}
    (htot : ∀ a b, le a b = true ∨ le b a = true)
    (htrans : ∀ a b c, le a b = true → le b c = true → le a c = true)
    {l : List α} : ∀ {s : α}, firstArgmaxBy le l = some s →
    ∀ t ∈ l, le t s = true := by
  induction l with
  | nil => intro s h; cases h
  | cons x xs ih =>
    intro s h t ht
    have hrefl : ∀ a : α, le a a = true := fun a => (htot a a).elim id id
    rcases hxs : firstArgmaxBy le xs with _ | m <;>
      simp only [firstArgmaxBy, hxs] at h
    · cases h
      have hnil : xs = [] := (firstArgmaxBy_eq_none_iff le xs).mp hxs
      subst hnil
      rcases List.mem_cons.mp ht with rfl | ht'
      · exact hrefl t
      · cases ht'
    · have hm : ∀ u ∈ xs, le u m = true := ih hxs
      split at h
      · rename_i hmx
        injection h with h'
        rw [← h']
        rcases List.mem_cons.mp ht with rfl | ht'
        · exact hrefl t
        · exact htrans _ _ _ (hm t ht') hmx
      · rename_i hmx
        injection h with h'
        rw [← h']
        rcases List.mem_cons.mp ht with rfl | ht'
        · rcases htot t m with h' | h'
          · exact h'
          · exact absurd h' hmx
        · exact hm t ht'

/-- The first argmax occurs at an index all of whose predecessors hold
strictly smaller elements: ties are resolved to the earliest element of the
original (upstream) ordering. -/
theorem firstArgmaxBy_first {le : α → α → Bool} {l : List α} :
    ∀ {s : α}, firstArgmaxBy le l = some s →
    ∃ i : Nat, l[i]? = some s ∧
      ∀ j, j < i → ∀ t, l[j]? = some t → le s t = false := by
  induction l with
  | nil => intro s h; cases h
  | cons x xs ih =>
    intro s h
    rcases hxs : firstArgmaxBy le xs with _ | m <;>
      simp only [firstArgmaxBy, hxs] at h
    · cases h
      exact ⟨0, by simp, fun j hj t _ => absurd hj (Nat.not_lt_zero j)⟩
    · split at h <;> cases h
      · exact ⟨0, by simp, fun j hj t _ => absurd hj (Nat.not_lt_zero j)⟩
      · rename_i hmx
        obtain ⟨i, hi, hfirst⟩ := ih hxs
        refine ⟨i + 1, by simpa using hi, ?_⟩
        intro j hj t hjt
        cases j with
        | zero =>
          simp only [List.getElem?_cons_zero, Option.some.injEq] at hjt
          subst hjt
          exact Bool.eq_false_iff.mpr hmx
        | succ j' =>
          simp only [List.getElem?_cons_succ] at hjt
          exact hfirst j' (Nat.lt_of_succ_lt_succ hj) t hjt

/-! ## The operations of class `YouTubeVideo` -/

/-- The filter of `save_video_as` (`check_if_dash_stream`): a video WEBM
stream, adaptive, encoded with a VP9-family codec. -/
def check_if_dash_stream (stream : Stream) : Bool :=
  if stream.mime_type ≠ "video/webm" then false
  else if !stream.is_adaptive then false
  else if stream.video_codec ∉ ["vp9", "vp9.2"] then false
  else true

/-- The filter of `save_audio_as`
(`self.video.streams.filter(mime_type="audio/webm", audio_codec="opus",
adaptive=True)`). -/
def audioStreamFilter (s : Stream) : Bool :=
  s.mime_type == "audio/webm" && s.audio_codec == "opus" && s.is_adaptive

/-- Construction of `tmp_video_file = Path(__file__).parent / f"tmp_video_<timestamp>.webm"`. -/
def tmpVideoPath (ts : String) : PyPath :=
  ⟨scriptDir, "tmp_video_" ++ ts, ".webm"⟩

/-- Construction of `tmp_audio_file = Path(__file__).parent / f"tmp_audio_<timestamp>.opus"`. -/
def tmpAudioPath (ts : String) : PyPath :=
  ⟨scriptDir, "tmp_audio_" ++ ts, ".opus"⟩

/-- One `Stream.download(output_path=..., filename=...)` call: records the
network event, consumes the next download-oracle outcome, and creates the
file `tmp` on success (on `failPartial` a partial file is left behind; on
`failClean` nothing is written).  Failures surface as an exception. -/
def runDownload (env : Env) (best : Stream) (tmp : PyPath) (st : St) :
    Except Err Unit × St :=
  let st1 := { st with trace := Ev.download tmp :: st.trace,
                       dlTick := st.dlTick + 1 }
  match env.dl st.dlTick with
  | .success => (.ok (), { st1 with fs := st1.fs.create tmp })
  | .failPartial => (.error .downloadError, { st1 with fs := st1.fs.create tmp })
  | .failClean => (.error .downloadError, st1)

/-- Model of `Path.rename`: fails with `FileNotFoundError` when the source is absent;
otherwise the source entry is replaced by the destination entry (renaming a
path onto itself leaves the file in place, as POSIX `rename` does). -/
def fsRename (src dst : PyPath) (fs : FS) : Except Err FS :=
  if src ∈ fs.files then .ok ((fs.unlink src).create dst)
  else .error .fileNotFound

/-- Model of `subprocess.run(shlex.split(command), check=True)` for an ffmpeg
invocation: records the process event, consumes the next exit status from
the oracle, and — modelling ffmpeg as the opaque collaborator of spec §6
(success = exit code 0) — writes its output file exactly when the exit
status is `0`.  A nonzero status raises `CalledProcessError`. -/
def runProcess (env : Env) (args : List String) (output : PyPath) (st : St) :
    Except Err Unit × St :=
  let st1 := { st with trace := Ev.run args :: st.trace,
                       pxTick := st.pxTick + 1 }
  if env.px st.pxTick = 0 then (.ok (), { st1 with fs := st1.fs.create output })
  else (.error .calledProcessError, st1)

/-- Translation of `YouTubeVideo.save_video_as`: validate the `.webm` target, read the
stream listing (network), filter with `check_if_dash_stream`, pick the best
stream by `(resolution, fps)` (raising `ValueError` when the filtered tuple
is empty), download to `tmp_video_{timestamp}.webm`, rename to the target,
and — `finally`, inlined on every exit path — unlink the temporary file
with `missing_ok=True`. -/
def save_video_as (env : Env) (target : PyPath) (st : St) :
    Except Err Unit × St :=
  match validate_target target [".webm"] st.fs with
  | .error e => (.error e, st)
  | .ok _ =>
    let st1 := { st with trace := Ev.streamsQuery :: st.trace }
    match selectBest videoLe (env.streams.filter check_if_dash_stream) with
    | none => (.error .valueError, st1)
    | some best_quality_stream =>
      let tmp_video_file := tmpVideoPath (env.clock st.clockTick)
      let st2 := { st1 with clockTick := st.clockTick + 1 }
      match runDownload env best_quality_stream tmp_video_file st2 with
      | (.error e, st3) =>
        (.error e, { st3 with fs := st3.fs.unlink tmp_video_file })
      | (.ok _, st3) =>
        match fsRename tmp_video_file target st3.fs with
        | .error e => (.error e, { st3 with fs := st3.fs.unlink tmp_video_file })
        | .ok fs2 => (.ok (), { st3 with fs := fs2.unlink tmp_video_file })

/-- The ffmpeg transcode command of `save_audio_as`,
`shlex.split(f"ffmpeg -i {tmp_audio_file} -c:a libmp3lame -q:a 0 {target}")`:
`-q:a 0` is the fixed high-quality encoding parameter. -/
def transcodeCommand (tmp target : PyPath) : List String :=
  ["ffmpeg", "-i", tmp.render, "-c:a", "libmp3lame", "-q:a", "0", target.render]

/-- Translation of `YouTubeVideo.save_audio_as`: validate the `.opus`/`.mp3` target, read
the stream listing, filter to adaptive `audio/webm` Opus streams, pick the
best by bit rate (raising `ValueError` when none match), download to
`tmp_audio_{timestamp}.opus`, then either transcode with ffmpeg (target is
`.mp3`) or rename (otherwise); `finally` (inlined on every exit path)
unlink the temporary file with `missing_ok=True`. -/
def save_audio_as (env : Env) (target : PyPath) (st : St) :
    Except Err Unit × St :=
  match validate_target target [".opus", ".mp3"] st.fs with
  | .error e => (.error e, st)
  | .ok _ =>
    let st1 := { st with trace := Ev.streamsQuery :: st.trace }
    match selectBest audioLe (env.streams.filter audioStreamFilter) with
    | none => (.error .valueError, st1)
    | some best_quality_stream =>
      let tmp_audio_file := tmpAudioPath (env.clock st.clockTick)
      let st2 := { st1 with clockTick := st.clockTick + 1 }
      match runDownload env best_quality_stream tmp_audio_file st2 with
      | (.error e, st3) =>
        (.error e, { st3 with fs := st3.fs.unlink tmp_audio_file })
      | (.ok _, st3) =>
        if target.suffix = ".mp3" then
          let res := runProcess env (transcodeCommand tmp_audio_file target)
            target st3
          (res.1, { res.2 with fs := res.2.fs.unlink tmp_audio_file })
        else
          match fsRename tmp_audio_file target st3.fs with
          | .error e =>
            (.error e, { st3 with fs := st3.fs.unlink tmp_audio_file })
          | .ok fs2 => (.ok (), { st3 with fs := fs2.unlink tmp_audio_file })

/-- The ffmpeg mux command of `save_as`,
`shlex.split(f"ffmpeg -i {tmp_video_file} -i {tmp_audio_file} {target}")`. -/
def muxCommand (v a target : PyPath) : List String :=
  ["ffmpeg", "-i", v.render, "-i", a.render, target.render]

/-- Translation of `YouTubeVideo.save_as`: validate the `.webm` target, take ONE timestamp,
derive both temporary paths from it, call `save_video_as` then
`save_audio_as` on those paths (each call is recorded as a
`callVideo`/`callAudio` event), mux the two temporaries into the target
with ffmpeg, and `finally` (inlined on every exit path) unlink both
temporary files with `missing_ok=True`. -/
def save_as (env : Env) (target : PyPath) (st : St) : Except Err Unit × St :=
  match validate_target target [".webm"] st.fs with
  | .error e => (.error e, st)
  | .ok _ =>
    let timestamp := env.clock st.clockTick
    let st1 := { st with clockTick := st.clockTick + 1 }
    let tmp_video_file := tmpVideoPath timestamp
    let tmp_audio_file := tmpAudioPath timestamp
    match save_video_as env tmp_video_file
        (emit st1 (.callVideo tmp_video_file)) with
    | (.error e, st2) =>
      (.error e,
        { st2 with fs := (st2.fs.unlink tmp_video_file).unlink tmp_audio_file })
    | (.ok _, st2) =>
      match save_audio_as env tmp_audio_file
          (emit st2 (.callAudio tmp_audio_file)) with
      | (.error e, st3) =>
        (.error e,
          { st3 with fs := (st3.fs.unlink tmp_video_file).unlink tmp_audio_file })
      | (.ok _, st3) =>
        let res := runProcess env (muxCommand tmp_video_file tmp_audio_file target)
          target st3
        (res.1,
          { res.2 with
              fs := (res.2.fs.unlink tmp_video_file).unlink tmp_audio_file })

/-- The script constant `__version__ = "1"`. -/
def __version__ : String := "1"

/-- The parsed CLI arguments (`argparse.Namespace`): the two positionals and
the two boolean flags. -/
structure Args where
  hyperlink : String
  target : PyPath
  audio_only : Bool
  version : Bool

/-- The script's `main(arguments)`: with `--version` it prints the version
string and returns at once (no filesystem, network, or process activity);
otherwise it dispatches on `--audio_only` to `save_audio_as` or `save_as`
on the user's target (each dispatch is recorded as a
`callAudio`/`callCombined` event). -/
def main (env : Env) (arguments : Args) (st : St) : Except Err Unit × St :=
  if arguments.version then
    (.ok (), emit st (.printOut ("Version: " ++ __version__)))
  else
    let target := arguments.target
    if arguments.audio_only then
      save_audio_as env target (emit st (.callAudio target))
    else
      save_as env target (emit st (.callCombined target))

/-! ## Characterisation lemmas for the primitive steps -/

theorem validate_target_ok_iff {target : PyPath} {exts : List String} {fs : FS} :
    validate_target target exts fs = .ok () ↔
      target.dir ∈ fs.dirs ∧ target ∉ fs.files ∧ target.suffix ∈ exts := by
  unfold validate_target
  split_ifs <;> simp_all

theorem runDownload_trace (env : Env) (b : Stream) (tmp : PyPath) (st : St) :
    (runDownload env b tmp st).2.trace = Ev.download tmp :: st.trace := by
  cases hdl : env.dl st.dlTick <;> simp [runDownload, hdl]

theorem runDownload_files_sub (env : Env) (b : Stream) (tmp : PyPath) (st : St) :
    ∀ q ∈ (runDownload env b tmp st).2.fs.files, q = tmp ∨ q ∈ st.fs.files := by
  intro q hq
  cases hdl : env.dl st.dlTick <;>
      simp only [runDownload, hdl, FS.create, List.mem_cons] at hq <;>
    tauto

theorem runDownload_err_trace (env : Env) (b : Stream) (tmp : PyPath) (st : St)
    {e : Err} (h : (runDownload env b tmp st).1 = .error e) :
    (runDownload env b tmp st).2.fs.files = tmp :: st.fs.files ∨
      (runDownload env b tmp st).2.fs.files = st.fs.files := by
  cases hdl : env.dl st.dlTick <;> simp [runDownload, hdl, FS.create] at h ⊢

theorem runDownload_success (env : Env) (b : Stream) (tmp : PyPath) (st : St)
    (h : env.dl st.dlTick = .success) :
    runDownload env b tmp st =
      (.ok (), { st with trace := Ev.download tmp :: st.trace,
                         dlTick := st.dlTick + 1,
                         fs := st.fs.create tmp }) := by
  simp [runDownload, h]

theorem runProcess_zero (env : Env) (args : List String) (output : PyPath)
    (st : St) (h : env.px st.pxTick = 0) :
    runProcess env args output st =
      (.ok (), { st with trace := Ev.run args :: st.trace,
                         pxTick := st.pxTick + 1,
                         fs := st.fs.create output }) := by
  simp [runProcess, h]

theorem runProcess_nonzero (env : Env) (args : List String) (output : PyPath)
    (st : St) (h : env.px st.pxTick ≠ 0) :
    runProcess env args output st =
      (.error .calledProcessError,
        { st with trace := Ev.run args :: st.trace,
                  pxTick := st.pxTick + 1 }) := by
  simp [runProcess, h]

theorem runProcess_trace (env : Env) (args : List String) (output : PyPath)
    (st : St) :
    (runProcess env args output st).2.trace = Ev.run args :: st.trace := by
  by_cases h : env.px st.pxTick = 0 <;>
    simp [runProcess_zero, runProcess_nonzero, h]

theorem runProcess_files_sub (env : Env) (args : List String) (output : PyPath)
    (st : St) :
    ∀ q ∈ (runProcess env args output st).2.fs.files,
      q = output ∨ q ∈ st.fs.files := by
  intro q hq
  by_cases h : env.px st.pxTick = 0 <;>
      simp only [runProcess_zero, runProcess_nonzero, h, ne_eq,
        not_false_iff, FS.create, List.mem_cons] at hq <;>
    tauto

theorem runProcess_err_files (env : Env) (args : List String) (output : PyPath)
    (st : St) {e : Err} (h : (runProcess env args output st).1 = .error e) :
    (runProcess env args output st).2.fs.files = st.fs.files := by
  by_cases hz : env.px st.pxTick = 0 <;>
    simp [runProcess_zero, runProcess_nonzero, hz] at h ⊢

theorem fsRename_ok_files {src dst : PyPath} {fs fs2 : FS}
    (h : fsRename src dst fs = .ok fs2) :
    ∀ q ∈ fs2.files, q = dst ∨ q ∈ fs.files := by
  intro q hq
  unfold fsRename at h
  split_ifs at h
  cases h
  rcases FS.mem_create.mp hq with rfl | hq'
  · exact Or.inl rfl
  · exact Or.inr (FS.mem_unlink.mp hq').1

theorem fsRename_ok_mem_dst {src dst : PyPath} {fs fs2 : FS}
    (h : fsRename src dst fs = .ok fs2) : dst ∈ fs2.files := by
  unfold fsRename at h
  split_ifs at h
  cases h
  exact FS.mem_create.mpr (Or.inl rfl)

theorem fsRename_of_mem {src dst : PyPath} {fs : FS} (h : src ∈ fs.files) :
    fsRename src dst fs = .ok ((fs.unlink src).create dst) := by
  simp [fsRename, h]

/-! ## Per-operation spec lemmas (filesystem subset and trace shape) -/

/-- The operation `save_video_as` only ever adds its target to the filesystem, adds
nothing at all when it raises, and appends only stream-query / download /
process events to the trace. -/
theorem save_video_as_spec (env : Env) (target : PyPath) (st : St) :
    (∀ q ∈ (save_video_as env target st).2.fs.files,
        q = target ∨ q ∈ st.fs.files) ∧
    (∀ e, (save_video_as env target st).1 = Except.error e →
        ∀ q ∈ (save_video_as env target st).2.fs.files, q ∈ st.fs.files) ∧
    (∃ Δ, (save_video_as env target st).2.trace = Δ ++ st.trace ∧
        ∀ ev ∈ Δ, ev = Ev.streamsQuery ∨ (∃ p, ev = Ev.download p) ∨
          ∃ a, ev = Ev.run a) := by
  rcases hv : validate_target target [".webm"] st.fs with e | u
  · simp only [save_video_as, hv]
    exact ⟨fun q hq => Or.inr hq, fun e' _ q hq => hq, ⟨[], rfl, by simp⟩⟩
  · cases u
    rcases hsel : selectBest videoLe (env.streams.filter check_if_dash_stream)
      with _ | best
    · simp only [save_video_as, hv, hsel]
      exact ⟨fun q hq => Or.inr hq, fun e' _ q hq => hq,
        ⟨[Ev.streamsQuery], rfl, by simp⟩⟩
    · simp only [save_video_as, hv, hsel]
      split
      · -- download failed
        rename_i e' st3 heq
        have hsub := runDownload_files_sub env best
          (tmpVideoPath (env.clock st.clockTick))
          { st with trace := Ev.streamsQuery :: st.trace,
                    clockTick := st.clockTick + 1 }
        have htr := runDownload_trace env best
          (tmpVideoPath (env.clock st.clockTick))
          { st with trace := Ev.streamsQuery :: st.trace,
                    clockTick := st.clockTick + 1 }
        rw [heq] at hsub htr
        refine ⟨?_, fun e'' _ q hq => ?_, ?_⟩
        · intro q hq
          rcases FS.mem_unlink.mp hq with ⟨hq', hne⟩
          rcases hsub q hq' with rfl | h'
          · exact absurd rfl hne
          · exact Or.inr h'
        · rcases FS.mem_unlink.mp hq with ⟨hq', hne⟩
          rcases hsub q hq' with rfl | h'
          · exact absurd rfl hne
          · exact h'
        · exact ⟨[Ev.download (tmpVideoPath (env.clock st.clockTick)),
            Ev.streamsQuery], htr, by simp⟩
      · -- download succeeded; rename
        rename_i u' st3 heq
        have hsub := runDownload_files_sub env best
          (tmpVideoPath (env.clock st.clockTick))
          { st with trace := Ev.streamsQuery :: st.trace,
                    clockTick := st.clockTick + 1 }
        have htr := runDownload_trace env best
          (tmpVideoPath (env.clock st.clockTick))
          { st with trace := Ev.streamsQuery :: st.trace,
                    clockTick := st.clockTick + 1 }
        rw [heq] at hsub htr
        split
        · -- rename failed (unreachable but harmless)
          refine ⟨?_, fun e'' _ q hq => ?_, ?_⟩
          · intro q hq
            rcases FS.mem_unlink.mp hq with ⟨hq', hne⟩
            rcases hsub q hq' with rfl | h'
            · exact absurd rfl hne
            · exact Or.inr h'
          · rcases FS.mem_unlink.mp hq with ⟨hq', hne⟩
            rcases hsub q hq' with rfl | h'
            · exact absurd rfl hne
            · exact h'
          · exact ⟨[Ev.download (tmpVideoPath (env.clock st.clockTick)),
              Ev.streamsQuery], htr, by simp⟩
        · -- rename succeeded
          rename_i fs2 hren
          refine ⟨?_, fun e'' he => by simp at he, ?_⟩
          · intro q hq
            rcases FS.mem_unlink.mp hq with ⟨hq', hne⟩
            rcases fsRename_ok_files hren q hq' with rfl | h'
            · exact Or.inl rfl
            · rcases hsub q h' with rfl | h''
              · exact absurd rfl hne
              · exact Or.inr h''
          · exact ⟨[Ev.download (tmpVideoPath (env.clock st.clockTick)),
              Ev.streamsQuery], htr, by simp⟩

/-- The operation `save_audio_as` only ever adds its target to the filesystem, adds
nothing at all when it raises, and appends only stream-query / download /
process events to the trace. -/
theorem save_audio_as_spec (env : Env) (target : PyPath) (st : St) :
    (∀ q ∈ (save_audio_as env target st).2.fs.files,
        q = target ∨ q ∈ st.fs.files) ∧
    (∀ e, (save_audio_as env target st).1 = Except.error e →
        ∀ q ∈ (save_audio_as env target st).2.fs.files, q ∈ st.fs.files) ∧
    (∃ Δ, (save_audio_as env target st).2.trace = Δ ++ st.trace ∧
        ∀ ev ∈ Δ, ev = Ev.streamsQuery ∨ (∃ p, ev = Ev.download p) ∨
          ∃ a, ev = Ev.run a) := by
  rcases hv : validate_target target [".opus", ".mp3"] st.fs with e | u
  · simp only [save_audio_as, hv]
    exact ⟨fun q hq => Or.inr hq, fun e' _ q hq => hq, ⟨[], rfl, by simp⟩⟩
  · cases u
    rcases hsel : selectBest audioLe (env.streams.filter audioStreamFilter)
      with _ | best
    · simp only [save_audio_as, hv, hsel]
      exact ⟨fun q hq => Or.inr hq, fun e' _ q hq => hq,
        ⟨[Ev.streamsQuery], rfl, by simp⟩⟩
    · simp only [save_audio_as, hv, hsel]
      split
      · -- download failed
        rename_i e' st3 heq
        have hsub := runDownload_files_sub env best
          (tmpAudioPath (env.clock st.clockTick))
          { st with trace := Ev.streamsQuery :: st.trace,
                    clockTick := st.clockTick + 1 }
        have htr := runDownload_trace env best
          (tmpAudioPath (env.clock st.clockTick))
          { st with trace := Ev.streamsQuery :: st.trace,
                    clockTick := st.clockTick + 1 }
        rw [heq] at hsub htr
        refine ⟨?_, fun e'' _ q hq => ?_, ?_⟩
        · intro q hq
          rcases FS.mem_unlink.mp hq with ⟨hq', hne⟩
          rcases hsub q hq' with rfl | h'
          · exact absurd rfl hne
          · exact Or.inr h'
        · rcases FS.mem_unlink.mp hq with ⟨hq', hne⟩
          rcases hsub q hq' with rfl | h'
          · exact absurd rfl hne
          · exact h'
        · exact ⟨[Ev.download (tmpAudioPath (env.clock st.clockTick)),
            Ev.streamsQuery], htr, by simp⟩
      · -- download succeeded
        rename_i u' st3 heq
        have hsub := runDownload_files_sub env best
          (tmpAudioPath (env.clock st.clockTick))
          { st with trace := Ev.streamsQuery :: st.trace,
                    clockTick := st.clockTick + 1 }
        have htr := runDownload_trace env best
          (tmpAudioPath (env.clock st.clockTick))
          { st with trace := Ev.streamsQuery :: st.trace,
                    clockTick := st.clockTick + 1 }
        rw [heq] at hsub htr
        split
        · -- .mp3: transcode with ffmpeg
          have hpsub := runProcess_files_sub env
            (transcodeCommand (tmpAudioPath (env.clock st.clockTick)) target)
            target st3
          have hptr := runProcess_trace env
            (transcodeCommand (tmpAudioPath (env.clock st.clockTick)) target)
            target st3
          refine ⟨?_, fun e'' he q hq => ?_, ?_⟩
          · intro q hq
            rcases FS.mem_unlink.mp hq with ⟨hq', hne⟩
            rcases hpsub q hq' with rfl | h'
            · exact Or.inl rfl
            · rcases hsub q h' with rfl | h''
              · exact absurd rfl hne
              · exact Or.inr h''
          · rcases FS.mem_unlink.mp hq with ⟨hq', hne⟩
            rw [runProcess_err_files env _ target st3 he] at hq'
            rcases hsub q hq' with rfl | h''
            · exact absurd rfl hne
            · exact h''
          · refine ⟨[Ev.run (transcodeCommand
                (tmpAudioPath (env.clock st.clockTick)) target),
              Ev.download (tmpAudioPath (env.clock st.clockTick)),
              Ev.streamsQuery], ?_, by simp⟩
            rw [hptr]
            exact congrArg (fun t => Ev.run (transcodeCommand
              (tmpAudioPath (env.clock st.clockTick)) target) :: t) htr
        · -- `.opus`: rename
          split
          · -- rename failed (unreachable but harmless)
            refine ⟨?_, fun e'' _ q hq => ?_, ?_⟩
            · intro q hq
              rcases FS.mem_unlink.mp hq with ⟨hq', hne⟩
              rcases hsub q hq' with rfl | h'
              · exact absurd rfl hne
              · exact Or.inr h'
            · rcases FS.mem_unlink.mp hq with ⟨hq', hne⟩
              rcases hsub q hq' with rfl | h'
              · exact absurd rfl hne
              · exact h'
            · exact ⟨[Ev.download (tmpAudioPath (env.clock st.clockTick)),
                Ev.streamsQuery], htr, by simp⟩
          · -- rename succeeded
            rename_i fs2 hren
            refine ⟨?_, fun e'' he => by simp at he, ?_⟩
            · intro q hq
              rcases FS.mem_unlink.mp hq with ⟨hq', hne⟩
              rcases fsRename_ok_files hren q hq' with rfl | h'
              · exact Or.inl rfl
              · rcases hsub q h' with rfl | h''
                · exact absurd rfl hne
                · exact Or.inr h''
            · exact ⟨[Ev.download (tmpAudioPath (env.clock st.clockTick)),
                Ev.streamsQuery], htr, by simp⟩

set_option maxHeartbeats 1000000 in
/-- The operation `save_as` only ever adds its target to the filesystem, adds nothing at
all when it raises, and appends only the two call events of its temporary
paths plus stream-query / download / process events to the trace. -/
theorem save_as_spec (env : Env) (target : PyPath) (st : St) :
    (∀ q ∈ (save_as env target st).2.fs.files,
        q = target ∨ q ∈ st.fs.files) ∧
    (∀ e, (save_as env target st).1 = Except.error e →
        ∀ q ∈ (save_as env target st).2.fs.files, q ∈ st.fs.files) ∧
    (∃ Δ, (save_as env target st).2.trace = Δ ++ st.trace ∧
        ∀ ev ∈ Δ, ev = Ev.callVideo (tmpVideoPath (env.clock st.clockTick)) ∨
          ev = Ev.callAudio (tmpAudioPath (env.clock st.clockTick)) ∨
          ev = Ev.streamsQuery ∨ (∃ p, ev = Ev.download p) ∨
          ∃ a, ev = Ev.run a) := by
  rcases hv : validate_target target [".webm"] st.fs with e | u
  · simp only [save_as, hv]
    exact ⟨fun q hq => Or.inr hq, fun e' _ q hq => hq, ⟨[], rfl, by simp⟩⟩
  · cases u
    simp only [save_as, hv]
    split
    · -- video phase failed
      rename_i e' st2 heq
      obtain ⟨vsub, verr, vΔ, vtr, vkinds⟩ := save_video_as_spec env
        (tmpVideoPath (env.clock st.clockTick))
        (emit { st with clockTick := st.clockTick + 1 }
          (Ev.callVideo (tmpVideoPath (env.clock st.clockTick))))
      rw [heq] at vsub verr vtr
      refine ⟨?_, fun e'' _ q hq => ?_, ?_⟩
      · intro q hq
        rcases FS.mem_unlink.mp hq with ⟨hq', hneA⟩
        rcases FS.mem_unlink.mp hq' with ⟨hq'', hneV⟩
        exact Or.inr (verr e' rfl q hq'')
      · rcases FS.mem_unlink.mp hq with ⟨hq', hneA⟩
        rcases FS.mem_unlink.mp hq' with ⟨hq'', hneV⟩
        exact verr e' rfl q hq''
      · refine ⟨vΔ ++ [Ev.callVideo (tmpVideoPath (env.clock st.clockTick))],
          ?_, ?_⟩
        · rw [show ({ st2 with
              fs := (st2.fs.unlink
                (tmpVideoPath (env.clock st.clockTick))).unlink
                  (tmpAudioPath (env.clock st.clockTick)) } : St).trace
            = st2.trace from rfl, vtr]
          simp [emit]
        · intro ev hev
          simp only [List.mem_append, List.mem_singleton] at hev
          have hV := fun h => vkinds ev h
          tauto
    · -- video phase succeeded
      rename_i u2 st2 heqV
      obtain ⟨vsub, verr, vΔ, vtr, vkinds⟩ := save_video_as_spec env
        (tmpVideoPath (env.clock st.clockTick))
        (emit { st with clockTick := st.clockTick + 1 }
          (Ev.callVideo (tmpVideoPath (env.clock st.clockTick))))
      rw [heqV] at vsub vtr
      split
      · -- audio phase failed
        rename_i e' st3 heqA
        obtain ⟨asub, aerr, aΔ, atr, akinds⟩ := save_audio_as_spec env
          (tmpAudioPath (env.clock st.clockTick))
          (emit st2 (Ev.callAudio (tmpAudioPath (env.clock st.clockTick))))
        rw [heqA] at asub aerr atr
        refine ⟨?_, fun e'' _ q hq => ?_, ?_⟩
        · intro q hq
          rcases FS.mem_unlink.mp hq with ⟨hq', hneA⟩
          rcases FS.mem_unlink.mp hq' with ⟨hq'', hneV⟩
          have hq3 : q ∈ st2.fs.files := aerr e' rfl q hq''
          rcases vsub q hq3 with rfl | h'
          · exact absurd rfl hneV
          · exact Or.inr h'
        · rcases FS.mem_unlink.mp hq with ⟨hq', hneA⟩
          rcases FS.mem_unlink.mp hq' with ⟨hq'', hneV⟩
          have hq3 : q ∈ st2.fs.files := aerr e' rfl q hq''
          rcases vsub q hq3 with rfl | h'
          · exact absurd rfl hneV
          · exact h'
        · refine ⟨aΔ ++
            Ev.callAudio (tmpAudioPath (env.clock st.clockTick)) :: vΔ ++
            [Ev.callVideo (tmpVideoPath (env.clock st.clockTick))], ?_, ?_⟩
          · rw [show ({ st3 with
                fs := (st3.fs.unlink
                  (tmpVideoPath (env.clock st.clockTick))).unlink
                    (tmpAudioPath (env.clock st.clockTick)) } : St).trace
              = st3.trace from rfl, atr]
            rw [show (emit st2 (Ev.callAudio
                (tmpAudioPath (env.clock st.clockTick)))).trace
              = Ev.callAudio (tmpAudioPath (env.clock st.clockTick)) ::
                st2.trace from rfl, vtr]
            simp [emit]
          · intro ev hev
            simp only [List.mem_append, List.mem_cons, List.mem_singleton]
              at hev
            have hA := fun h => akinds ev h
            have hV := fun h => vkinds ev h
            tauto
      · -- both phases succeeded: mux
        rename_i u3 st3 heqA
        obtain ⟨asub, aerr, aΔ, atr, akinds⟩ := save_audio_as_spec env
          (tmpAudioPath (env.clock st.clockTick))
          (emit st2 (Ev.callAudio (tmpAudioPath (env.clock st.clockTick))))
        rw [heqA] at asub atr
        have hpsub := runProcess_files_sub env
          (muxCommand (tmpVideoPath (env.clock st.clockTick))
            (tmpAudioPath (env.clock st.clockTick)) target) target st3
        have hptr := runProcess_trace env
          (muxCommand (tmpVideoPath (env.clock st.clockTick))
            (tmpAudioPath (env.clock st.clockTick)) target) target st3
        refine ⟨?_, fun e'' he q hq => ?_, ?_⟩
        · intro q hq
          rcases FS.mem_unlink.mp hq with ⟨hq', hneA⟩
          rcases FS.mem_unlink.mp hq' with ⟨hq'', hneV⟩
          rcases hpsub q hq'' with rfl | h'
          · exact Or.inl rfl
          · rcases asub q h' with rfl | h''
            · exact absurd rfl hneA
            · rcases vsub q h'' with rfl | h'''
              · exact absurd rfl hneV
              · exact Or.inr h'''
        · rcases FS.mem_unlink.mp hq with ⟨hq', hneA⟩
          rcases FS.mem_unlink.mp hq' with ⟨hq'', hneV⟩
          rw [runProcess_err_files env _ target st3 he] at hq''
          rcases asub q hq'' with rfl | h''
          · exact absurd rfl hneA
          · rcases vsub q h'' with rfl | h'''
            · exact absurd rfl hneV
            · exact h'''
        · refine ⟨Ev.run (muxCommand (tmpVideoPath (env.clock st.clockTick))
              (tmpAudioPath (env.clock st.clockTick)) target) :: aΔ ++
            Ev.callAudio (tmpAudioPath (env.clock st.clockTick)) :: vΔ ++
            [Ev.callVideo (tmpVideoPath (env.clock st.clockTick))], ?_, ?_⟩
          · dsimp only at atr vtr ⊢
            rw [hptr, atr]
            dsimp only [emit]
            rw [vtr]
            dsimp only [emit]
            simp
          · intro ev hev
            simp only [List.mem_cons, List.mem_append, List.mem_singleton]
              at hev
            have hA := fun h => akinds ev h
            have hV := fun h => vkinds ev h
            have hrun : ev = Ev.run (muxCommand
                (tmpVideoPath (env.clock st.clockTick))
                (tmpAudioPath (env.clock st.clockTick)) target) →
                ∃ a, ev = Ev.run a := fun h => ⟨_, h⟩
            tauto

/-! ## Temp-artifact pattern -/

/-- A path of the form `tmp_video_<timestamp>.webm` in the script
directory. -/
def isTmpVideo (p : PyPath) : Prop := ∃ ts, p = tmpVideoPath ts

/-- A path of the form `tmp_audio_<timestamp>.opus` in the script
directory. -/
def isTmpAudio (p : PyPath) : Prop := ∃ ts, p = tmpAudioPath ts

/-- A temporary artifact of either operation (spec §6: callers must never
pre-create files matching this pattern). -/
def isTmpArtifact (p : PyPath) : Prop := isTmpVideo p ∨ isTmpAudio p

theorem isTmpArtifact_tmpVideoPath (ts : String) :
    isTmpArtifact (tmpVideoPath ts) := Or.inl ⟨ts, rfl⟩

theorem isTmpArtifact_tmpAudioPath (ts : String) :
    isTmpArtifact (tmpAudioPath ts) := Or.inr ⟨ts, rfl⟩

/-! ## Validation lemmas -/

theorem validate_target_parent_missing {t : PyPath} {exts : List String}
    {fs : FS} (h : t.dir ∉ fs.dirs) :
    validate_target t exts fs = .error .fileNotFound := by
  simp [validate_target, h]

theorem validate_target_already_exists {t : PyPath} {exts : List String}
    {fs : FS} (hd : t.dir ∈ fs.dirs) (hf : t ∈ fs.files) :
    validate_target t exts fs = .error .fileExists := by
  simp [validate_target, hd, hf]

theorem validate_target_bad_ext {t : PyPath} {exts : List String} {fs : FS}
    (hd : t.dir ∈ fs.dirs) (hf : t ∉ fs.files) (hs : t.suffix ∉ exts) :
    validate_target t exts fs = .error .typeError := by
  simp [validate_target, hd, hf, hs]

theorem save_video_as_validate_err {env : Env} {target : PyPath} {st : St}
    {e : Err} (h : validate_target target [".webm"] st.fs = .error e) :
    save_video_as env target st = (.error e, st) := by
  simp [save_video_as, h]

theorem save_audio_as_validate_err {env : Env} {target : PyPath} {st : St}
    {e : Err} (h : validate_target target [".opus", ".mp3"] st.fs = .error e) :
    save_audio_as env target st = (.error e, st) := by
  simp [save_audio_as, h]

theorem save_as_validate_err {env : Env} {target : PyPath} {st : St}
    {e : Err} (h : validate_target target [".webm"] st.fs = .error e) :
    save_as env target st = (.error e, st) := by
  simp [save_as, h]

/-! ## The claims -/

/-- C9: the three destination checks run in a fixed order — parent
existence, then destination existence, then extension membership — so with
multiple violations the earlier check's error is raised: a destination with
a missing parent raises the parent-missing error even when its extension is
also unsupported, and an existing destination raises the already-exists
error even when its extension is unsupported. -/
theorem claim_c9_validation_order (fs : FS) (target : PyPath)
    (exts : List String) (hs : target.suffix ∉ exts) :
    (target.dir ∉ fs.dirs →
      validate_target target exts fs = .error .fileNotFound) ∧
    (target.dir ∈ fs.dirs → target ∈ fs.files →
      validate_target target exts fs = .error .fileExists) :=
  ⟨fun hd => validate_target_parent_missing hd,
   fun hd hf => validate_target_already_exists hd hf⟩

/-- Witness for C9 at concrete inputs: a `.mp4` destination under a missing
parent directory fails with the parent error, and an existing `.mp4`
destination fails with the already-exists error. -/
theorem claim_c9_witness :
    (validate_target ⟨"/nodir", "x", ".mp4"⟩ [".webm"]
      ⟨["/out"], []⟩ = .error .fileNotFound) ∧
    (validate_target ⟨"/out", "x", ".mp4"⟩ [".webm"]
      ⟨["/out"], [⟨"/out", "x", ".mp4"⟩]⟩ = .error .fileExists) :=
  ⟨(claim_c9_validation_order ⟨["/out"], []⟩ ⟨"/nodir", "x", ".mp4"⟩
      [".webm"] (by decide)).1 (by decide),
   (claim_c9_validation_order ⟨["/out"], [⟨"/out", "x", ".mp4"⟩]⟩
      ⟨"/out", "x", ".mp4"⟩ [".webm"] (by decide)).2 (by decide) (by decide)⟩

/-- C2: every public operation validates the destination first and with zero
side effects (the returned state, including the event trace, is exactly the
input state, so no network or process activity happened): a missing parent
directory yields the parent-missing error, an existing destination the
already-exists error, and an extension outside the operation's accepted set
the unsupported-extension error; `save_video_as` and `save_as` accept only
`.webm`, `save_audio_as` only `.opus` and `.mp3`. -/
theorem claim_c2_validation (env : Env) (st : St) (target : PyPath) :
    (target.dir ∉ st.fs.dirs →
      save_video_as env target st = (.error .fileNotFound, st) ∧
      save_as env target st = (.error .fileNotFound, st) ∧
      save_audio_as env target st = (.error .fileNotFound, st)) ∧
    (target.dir ∈ st.fs.dirs → target ∈ st.fs.files →
      save_video_as env target st = (.error .fileExists, st) ∧
      save_as env target st = (.error .fileExists, st) ∧
      save_audio_as env target st = (.error .fileExists, st)) ∧
    (target.dir ∈ st.fs.dirs → target ∉ st.fs.files →
      (target.suffix ∉ [".webm"] →
        save_video_as env target st = (.error .typeError, st) ∧
        save_as env target st = (.error .typeError, st)) ∧
      (target.suffix ∉ [".opus", ".mp3"] →
        save_audio_as env target st = (.error .typeError, st))) := by
  refine ⟨fun hd => ?_, fun hd hf => ?_, fun hd hf => ⟨fun hs => ?_, fun hs => ?_⟩⟩
  · exact ⟨save_video_as_validate_err (validate_target_parent_missing hd),
      save_as_validate_err (validate_target_parent_missing hd),
      save_audio_as_validate_err (validate_target_parent_missing hd)⟩
  · exact ⟨save_video_as_validate_err (validate_target_already_exists hd hf),
      save_as_validate_err (validate_target_already_exists hd hf),
      save_audio_as_validate_err (validate_target_already_exists hd hf)⟩
  · exact ⟨save_video_as_validate_err (validate_target_bad_ext hd hf hs),
      save_as_validate_err (validate_target_bad_ext hd hf hs)⟩
  · exact save_audio_as_validate_err (validate_target_bad_ext hd hf hs)

/-- Witness for C2 at concrete inputs: each validation error is produced by
each operation, with the state returned unchanged. -/
theorem claim_c2_witness :
    (save_video_as ⟨[], fun _ => "T", fun _ => .success, fun _ => 0⟩
        ⟨"/nodir", "x", ".webm"⟩
        ⟨⟨["/out"], []⟩, 0, 0, 0, []⟩ =
      (.error .fileNotFound, ⟨⟨["/out"], []⟩, 0, 0, 0, []⟩)) ∧
    (save_as ⟨[], fun _ => "T", fun _ => .success, fun _ => 0⟩
        ⟨"/out", "x", ".webm"⟩
        ⟨⟨["/out"], [⟨"/out", "x", ".webm"⟩]⟩, 0, 0, 0, []⟩ =
      (.error .fileExists, ⟨⟨["/out"], [⟨"/out", "x", ".webm"⟩]⟩, 0, 0, 0, []⟩)) ∧
    (save_audio_as ⟨[], fun _ => "T", fun _ => .success, fun _ => 0⟩
        ⟨"/out", "x", ".webm"⟩
        ⟨⟨["/out"], []⟩, 0, 0, 0, []⟩ =
      (.error .typeError, ⟨⟨["/out"], []⟩, 0, 0, 0, []⟩)) :=
  ⟨((claim_c2_validation _ _ _).1 (by decide)).1,
   (((claim_c2_validation _ _ _).2.1 (by decide) (by decide)).2.1),
   (((claim_c2_validation _ _ _).2.2 (by decide) (by decide)).2 (by decide))⟩

/-- C8: with the `--version` flag set, `main` prints the version string and
returns immediately: the returned state is the input state with only the
print event added, so the filesystem is untouched and no network, download,
or process event occurs, regardless of the other arguments. -/
theorem claim_c8_version_short_circuit (env : Env) (arguments : Args)
    (st : St) (hv : arguments.version = true) :
    main env arguments st =
      (.ok (), { st with
        trace := Ev.printOut ("Version: " ++ __version__) :: st.trace }) ∧
    (main env arguments st).2.fs = st.fs ∧
    ∀ ev ∈ (main env arguments st).2.trace,
      ev ∈ st.trace ∨ ev = Ev.printOut ("Version: " ++ __version__) := by
  refine ⟨by simp [main, hv, emit], by simp [main, hv, emit], ?_⟩
  intro ev hev
  simp only [main, hv, if_true, emit] at hev
  rcases List.mem_cons.mp hev with rfl | h'
  · exact Or.inr rfl
  · exact Or.inl h'

/-- Witness for C8 at concrete inputs: `--version` with arbitrary other
arguments prints and leaves the state otherwise unchanged. -/
theorem claim_c8_witness :
    main ⟨[], fun _ => "T", fun _ => .success, fun _ => 0⟩
        ⟨"https://youtu.be/x", ⟨"/out", "x", ".webm"⟩, false, true⟩
        ⟨⟨["/out"], []⟩, 0, 0, 0, []⟩ =
      (.ok (), ⟨⟨["/out"], []⟩, 0, 0, 0,
        [Ev.printOut ("Version: " ++ __version__)]⟩) :=
  (claim_c8_version_short_circuit _ _ _ rfl).1

/-- C1: cleanup invariant.  Deletion uses a missing-is-fine semantic
(`FS.unlink` is total and is the identity on an absent path), and for every
public operation, every failure — in particular every failure occurring
after a temporary file has been created — leaves no temporary artifact
behind in the filesystem and has not created the caller-specified
destination.  The hypothesis is spec §6's contract that callers never
pre-create files matching the temp pattern. -/
theorem claim_c1_cleanup_invariant (env : Env) (st : St) (target : PyPath)
    (hclean : ∀ p ∈ st.fs.files, ¬ isTmpArtifact p) :
    (∀ (fs : FS) (p : PyPath), p ∉ fs.files →
      (fs.unlink p).files = fs.files) ∧
    (∀ e, (save_video_as env target st).1 = Except.error e →
      (∀ q ∈ (save_video_as env target st).2.fs.files, ¬ isTmpArtifact q) ∧
      (target ∈ (save_video_as env target st).2.fs.files →
        target ∈ st.fs.files)) ∧
    (∀ e, (save_audio_as env target st).1 = Except.error e →
      (∀ q ∈ (save_audio_as env target st).2.fs.files, ¬ isTmpArtifact q) ∧
      (target ∈ (save_audio_as env target st).2.fs.files →
        target ∈ st.fs.files)) ∧
    (∀ e, (save_as env target st).1 = Except.error e →
      (∀ q ∈ (save_as env target st).2.fs.files, ¬ isTmpArtifact q) ∧
      (target ∈ (save_as env target st).2.fs.files →
        target ∈ st.fs.files)) := by
  refine ⟨fun fs p h => FS.unlink_of_not_mem h, fun e he => ?_, fun e he => ?_,
    fun e he => ?_⟩
  · obtain ⟨-, herr, -⟩ := save_video_as_spec env target st
    exact ⟨fun q hq => hclean q (herr e he q hq), fun ht => herr e he target ht⟩
  · obtain ⟨-, herr, -⟩ := save_audio_as_spec env target st
    exact ⟨fun q hq => hclean q (herr e he q hq), fun ht => herr e he target ht⟩
  · obtain ⟨-, herr, -⟩ := save_as_spec env target st
    exact ⟨fun q hq => hclean q (herr e he q hq), fun ht => herr e he target ht⟩

/-- Witness for C1 at concrete inputs: with no streams available every
operation fails (after validation), and the final filesystem holds no
temporary artifact and no destination.  The download oracle is set to
`failPartial` so a failing download does leave a partial temp file to be
cleaned up. -/
theorem claim_c1_witness :
    ((save_video_as ⟨[], fun _ => "T", fun _ => .failPartial, fun _ => 1⟩
        ⟨"/out", "movie", ".webm"⟩ ⟨⟨["/out"], []⟩, 0, 0, 0, []⟩).1 =
      Except.error .valueError) ∧
    (∀ q ∈ (save_video_as ⟨[], fun _ => "T", fun _ => .failPartial, fun _ => 1⟩
        ⟨"/out", "movie", ".webm"⟩ ⟨⟨["/out"], []⟩, 0, 0, 0, []⟩).2.fs.files,
      ¬ isTmpArtifact q) ∧
    (⟨"/out", "movie", ".webm"⟩ ∈
        (save_video_as ⟨[], fun _ => "T", fun _ => .failPartial, fun _ => 1⟩
          ⟨"/out", "movie", ".webm"⟩
          ⟨⟨["/out"], []⟩, 0, 0, 0, []⟩).2.fs.files →
      (⟨"/out", "movie", ".webm"⟩ : PyPath) ∈ ([] : List PyPath)) :=
  have h := claim_c1_cleanup_invariant
    ⟨[], fun _ => "T", fun _ => .failPartial, fun _ => 1⟩
    ⟨⟨["/out"], []⟩, 0, 0, 0, []⟩ ⟨"/out", "movie", ".webm"⟩
    (fun p hp => absurd hp (by simp))
  ⟨by decide, (h.2.1 .valueError (by decide)).1, (h.2.1 .valueError (by decide)).2⟩

/-- C3: when the filtered candidate set is empty, `save_video_as` and
`save_audio_as` fail with the unpacking `ValueError` (the spec's
`NoStreamFoundError`) right after the stream enumeration: the returned
state records only the stream-query event — no download, no filesystem
change. -/
theorem claim_c3_no_stream_found (env : Env) (st : St) (target : PyPath) :
    (validate_target target [".webm"] st.fs = .ok () →
      env.streams.filter check_if_dash_stream = [] →
      save_video_as env target st =
        (.error .valueError,
          { st with trace := Ev.streamsQuery :: st.trace })) ∧
    (validate_target target [".opus", ".mp3"] st.fs = .ok () →
      env.streams.filter audioStreamFilter = [] →
      save_audio_as env target st =
        (.error .valueError,
          { st with trace := Ev.streamsQuery :: st.trace })) := by
  constructor
  · intro hval hfilter
    simp [save_video_as, hval, hfilter, selectBest, pySortedDescBy]
  · intro hval hfilter
    simp [save_audio_as, hval, hfilter, selectBest, pySortedDescBy]

/-- Witness for C3 at concrete inputs: a provider exposing only a non-DASH
stream yields an empty candidate set for both operations, which then fail
with the `ValueError` having recorded only the stream query. -/
theorem claim_c3_witness :
    (save_video_as
        ⟨[⟨"video/mp4", false, "avc1", "mp4a", 720, 30, 0⟩],
          fun _ => "T", fun _ => .success, fun _ => 0⟩
        ⟨"/out", "movie", ".webm"⟩ ⟨⟨["/out"], []⟩, 0, 0, 0, []⟩ =
      (.error .valueError,
        ⟨⟨["/out"], []⟩, 0, 0, 0, [Ev.streamsQuery]⟩)) ∧
    (save_audio_as
        ⟨[⟨"video/mp4", false, "avc1", "mp4a", 720, 30, 0⟩],
          fun _ => "T", fun _ => .success, fun _ => 0⟩
        ⟨"/out", "song", ".opus"⟩ ⟨⟨["/out"], []⟩, 0, 0, 0, []⟩ =
      (.error .valueError,
        ⟨⟨["/out"], []⟩, 0, 0, 0, [Ev.streamsQuery]⟩)) :=
  ⟨(claim_c3_no_stream_found _ _ _).1 (by decide) (by decide),
   (claim_c3_no_stream_found _ _ _).2 (by decide) (by decide)⟩

/-- C4: stream selection is the deterministic lexicographic argmax of the
ranking key — `(resolution, fps)` for video, bit rate for audio — and
full-key ties resolve to the earliest candidate in the upstream descriptor
ordering (the stable sort places it first).  On the spec's examples, video
keys `[(720,30),(1080,30),(1080,60),(480,60)]` select `(1080,60)` and audio
bit rates `[128,256,96]` select `256`. -/
theorem claim_c4_selection_argmax :
    (∀ l : List Stream, l ≠ [] →
      ∃ s, selectBest videoLe l = some s ∧ s ∈ l ∧
        (∀ t ∈ l, t.resolution < s.resolution ∨
          (t.resolution = s.resolution ∧ t.fps ≤ s.fps)) ∧
        (∃ i : Nat, l[i]? = some s ∧
          ∀ j, j < i → ∀ t, l[j]? = some t → videoLe s t = false)) ∧
    (∀ l : List Stream, l ≠ [] →
      ∃ s, selectBest audioLe l = some s ∧ s ∈ l ∧
        (∀ t ∈ l, t.bitrate ≤ s.bitrate) ∧
        (∃ i : Nat, l[i]? = some s ∧
          ∀ j, j < i → ∀ t, l[j]? = some t → audioLe s t = false)) ∧
    selectBest videoLe (List.filter check_if_dash_stream
      [⟨"video/webm", true, "vp9", "", 720, 30, 0⟩,
       ⟨"video/webm", true, "vp9", "", 1080, 30, 0⟩,
       ⟨"video/webm", true, "vp9", "", 1080, 60, 0⟩,
       ⟨"video/webm", true, "vp9", "", 480, 60, 0⟩]) =
      some ⟨"video/webm", true, "vp9", "", 1080, 60, 0⟩ ∧
    selectBest audioLe (List.filter audioStreamFilter
      [⟨"audio/webm", true, "", "opus", 0, 0, 128⟩,
       ⟨"audio/webm", true, "", "opus", 0, 0, 256⟩,
       ⟨"audio/webm", true, "", "opus", 0, 0, 96⟩]) =
      some ⟨"audio/webm", true, "", "opus", 0, 0, 256⟩ := by
  refine ⟨fun l hl => ?_, fun l hl => ?_, by decide, by decide⟩
  · rcases hs : firstArgmaxBy videoLe l with _ | s
    · exact absurd ((firstArgmaxBy_eq_none_iff videoLe l).mp hs) hl
    · refine ⟨s, by rw [selectBest_eq_firstArgmaxBy, hs], firstArgmaxBy_mem hs,
        fun t ht => ?_, firstArgmaxBy_first hs⟩
      have := firstArgmaxBy_le videoLe_total (fun a b c => videoLe_trans)
        hs t ht
      simpa [videoLe, sort_criteria, tupLe_iff] using this
  · rcases hs : firstArgmaxBy audioLe l with _ | s
    · exact absurd ((firstArgmaxBy_eq_none_iff audioLe l).mp hs) hl
    · refine ⟨s, by rw [selectBest_eq_firstArgmaxBy, hs], firstArgmaxBy_mem hs,
        fun t ht => ?_, firstArgmaxBy_first hs⟩
      have := firstArgmaxBy_le audioLe_total (fun a b c => audioLe_trans)
        hs t ht
      simpa [audioLe] using this

/-- Witness for C4 on concrete two-element candidate lists, including a
full-key tie where the first (upstream-earlier) descriptor wins. -/
theorem claim_c4_witness :
    (∃ s, selectBest videoLe
        [⟨"video/webm", true, "vp9", "", 1080, 60, 5⟩,
         ⟨"video/webm", true, "vp9.2", "", 1080, 60, 7⟩] = some s ∧
      s ∈ [⟨"video/webm", true, "vp9", "", 1080, 60, 5⟩,
           ⟨"video/webm", true, "vp9.2", "", 1080, 60, 7⟩] ∧
      (∀ t ∈ [⟨"video/webm", true, "vp9", "", 1080, 60, 5⟩,
              (⟨"video/webm", true, "vp9.2", "", 1080, 60, 7⟩ : Stream)],
        t.resolution < s.resolution ∨
          (t.resolution = s.resolution ∧ t.fps ≤ s.fps)) ∧
      (∃ i : Nat,
        [⟨"video/webm", true, "vp9", "", 1080, 60, 5⟩,
         (⟨"video/webm", true, "vp9.2", "", 1080, 60, 7⟩ : Stream)][i]?
          = some s ∧
        ∀ j, j < i → ∀ t,
          [⟨"video/webm", true, "vp9", "", 1080, 60, 5⟩,
           (⟨"video/webm", true, "vp9.2", "", 1080, 60, 7⟩ : Stream)][j]?
            = some t → videoLe s t = false)) ∧
    (∃ s, selectBest audioLe
        [⟨"audio/webm", true, "", "opus", 0, 0, 128⟩,
         ⟨"audio/webm", true, "", "opus", 0, 0, 256⟩] = some s ∧
      s ∈ [⟨"audio/webm", true, "", "opus", 0, 0, 128⟩,
           ⟨"audio/webm", true, "", "opus", 0, 0, 256⟩] ∧
      (∀ t ∈ [⟨"audio/webm", true, "", "opus", 0, 0, 128⟩,
              (⟨"audio/webm", true, "", "opus", 0, 0, 256⟩ : Stream)],
        t.bitrate ≤ s.bitrate) ∧
      (∃ i : Nat,
        [⟨"audio/webm", true, "", "opus", 0, 0, 128⟩,
         (⟨"audio/webm", true, "", "opus", 0, 0, 256⟩ : Stream)][i]?
          = some s ∧
        ∀ j, j < i → ∀ t,
          [⟨"audio/webm", true, "", "opus", 0, 0, 128⟩,
           (⟨"audio/webm", true, "", "opus", 0, 0, 256⟩ : Stream)][j]?
            = some t → audioLe s t = false)) :=
  ⟨claim_c4_selection_argmax.1 _ (by decide),
   claim_c4_selection_argmax.2.1 _ (by decide)⟩

/-- C5: on a successful audio download, `save_audio_as` to a `.opus`
destination never invokes the external transcoder (no process event) and
instead renames the temp file to the destination (which therefore exists),
while a `.mp3` destination always invokes ffmpeg on the native temp file
with the fixed `-q:a 0` parameter (the process event with exactly that
command is in the trace), a nonzero exit status being the fatal
`CalledProcessError` (the spec's `TranscodeError`) and a zero exit status
a success. -/
theorem claim_c5_audio_transcode (env : Env) (st : St) (target : PyPath)
    (hval : validate_target target [".opus", ".mp3"] st.fs = .ok ())
    (hcand : env.streams.filter audioStreamFilter ≠ [])
    (hdl : env.dl st.dlTick = .success)
    (htgt : ∀ ts, target ≠ tmpAudioPath ts) :
    (target.suffix = ".opus" →
      (save_audio_as env target st).1 = .ok () ∧
      target ∈ (save_audio_as env target st).2.fs.files ∧
      (∃ Δ, (save_audio_as env target st).2.trace = Δ ++ st.trace ∧
        ∀ a, Ev.run a ∉ Δ)) ∧
    (target.suffix = ".mp3" →
      (∃ Δ, (save_audio_as env target st).2.trace = Δ ++ st.trace ∧
        Ev.run (transcodeCommand (tmpAudioPath (env.clock st.clockTick))
          target) ∈ Δ) ∧
      (env.px st.pxTick ≠ 0 →
        (save_audio_as env target st).1 = .error .calledProcessError) ∧
      (env.px st.pxTick = 0 →
        (save_audio_as env target st).1 = .ok ())) := by
  obtain ⟨best, hsel⟩ : ∃ best,
      selectBest audioLe (env.streams.filter audioStreamFilter)
        = some best := by
    rw [selectBest_eq_firstArgmaxBy]
    rcases hfa : firstArgmaxBy audioLe (env.streams.filter audioStreamFilter)
      with _ | best
    · exact absurd ((firstArgmaxBy_eq_none_iff _ _).mp hfa) hcand
    · exact ⟨best, rfl⟩
  constructor
  · intro hsuf
    have hne : ¬ (target.suffix = ".mp3") := by
      rw [hsuf]
      decide
    refine ⟨?_, ?_, ?_⟩
    · simp [save_audio_as, hval, hsel, runDownload, hdl, hne, fsRename,
        FS.create, FS.mem_create]
    · simp [save_audio_as, hval, hsel, runDownload, hdl, hne, fsRename,
        FS.create, FS.unlink, htgt _]
    · refine ⟨[Ev.download (tmpAudioPath (env.clock st.clockTick)),
        Ev.streamsQuery], ?_, by simp⟩
      simp [save_audio_as, hval, hsel, runDownload, hdl, hne, fsRename,
        FS.create]
  · intro hsuf
    refine ⟨?_, fun hpx => ?_, fun hpx => ?_⟩
    · refine ⟨[Ev.run (transcodeCommand
          (tmpAudioPath (env.clock st.clockTick)) target),
        Ev.download (tmpAudioPath (env.clock st.clockTick)),
        Ev.streamsQuery], ?_, by simp⟩
      simp only [save_audio_as, hval, hsel, runDownload, hdl, hsuf,
        runProcess, FS.create, FS.unlink, if_true, reduceIte]
      split <;> rfl
    · simp [save_audio_as, hval, hsel, runDownload, hdl, hsuf, runProcess,
        hpx]
    · simp [save_audio_as, hval, hsel, runDownload, hdl, hsuf, runProcess,
        hpx]

/-- Witness for C5 at concrete inputs: with one opus candidate stream and a
successful download, the `.opus` destination succeeds by rename, and the
`.mp3` destination fails when the transcoder exits `1` and succeeds when it
exits `0`. -/
theorem claim_c5_witness :
    ((save_audio_as
        ⟨[⟨"audio/webm", true, "", "opus", 0, 0, 160⟩],
          fun _ => "T", fun _ => .success, fun _ => 0⟩
        ⟨"/out", "song", ".opus"⟩ ⟨⟨["/out"], []⟩, 0, 0, 0, []⟩).1 =
      .ok ()) ∧
    ((save_audio_as
        ⟨[⟨"audio/webm", true, "", "opus", 0, 0, 160⟩],
          fun _ => "T", fun _ => .success, fun _ => 1⟩
        ⟨"/out", "song", ".mp3"⟩ ⟨⟨["/out"], []⟩, 0, 0, 0, []⟩).1 =
      .error .calledProcessError) ∧
    ((save_audio_as
        ⟨[⟨"audio/webm", true, "", "opus", 0, 0, 160⟩],
          fun _ => "T", fun _ => .success, fun _ => 0⟩
        ⟨"/out", "song", ".mp3"⟩ ⟨⟨["/out"], []⟩, 0, 0, 0, []⟩).1 =
      .ok ()) :=
  ⟨(((claim_c5_audio_transcode
      ⟨[⟨"audio/webm", true, "", "opus", 0, 0, 160⟩],
        fun _ => "T", fun _ => .success, fun _ => 0⟩
      ⟨⟨["/out"], []⟩, 0, 0, 0, []⟩ ⟨"/out", "song", ".opus"⟩
      (by decide) (by decide) rfl
      (fun ts h => absurd (congrArg PyPath.dir h)
        (show ("/out" : String) ≠ "/app/src" by decide))).1) rfl).1,
   (((claim_c5_audio_transcode
      ⟨[⟨"audio/webm", true, "", "opus", 0, 0, 160⟩],
        fun _ => "T", fun _ => .success, fun _ => 1⟩
      ⟨⟨["/out"], []⟩, 0, 0, 0, []⟩ ⟨"/out", "song", ".mp3"⟩
      (by decide) (by decide) rfl
      (fun ts h => absurd (congrArg PyPath.dir h)
        (show ("/out" : String) ≠ "/app/src" by decide))).2) rfl).2.1
      (by decide),
   (((claim_c5_audio_transcode
      ⟨[⟨"audio/webm", true, "", "opus", 0, 0, 160⟩],
        fun _ => "T", fun _ => .success, fun _ => 0⟩
      ⟨⟨["/out"], []⟩, 0, 0, 0, []⟩ ⟨"/out", "song", ".mp3"⟩
      (by decide) (by decide) rfl
      (fun ts h => absurd (congrArg PyPath.dir h)
        (show ("/out" : String) ≠ "/app/src" by decide))).2) rfl).2.2
      rfl⟩

/-- C6: `save_as` takes one shared timestamp and derives both temp names
from it (`tmp_video_<ts>.webm` and `tmp_audio_<ts>.opus`), runs the video
download (via `save_video_as`) and then the audio download (via
`save_audio_as`) sequentially on those paths — the trace shows the
`callVideo` event strictly before the `callAudio` event — and then invokes
one external mux process on the two temp inputs and the destination; a
nonzero mux exit status is the fatal `CalledProcessError` (the spec's
`MuxError`), a zero exit status a success. -/
theorem claim_c6_combined_pipeline (env : Env) (st : St) (target : PyPath)
    (hval : validate_target target [".webm"] st.fs = .ok ())
    (st2 : St)
    (hvideo : save_video_as env (tmpVideoPath (env.clock st.clockTick))
      (emit { st with clockTick := st.clockTick + 1 }
        (Ev.callVideo (tmpVideoPath (env.clock st.clockTick)))) =
      (.ok (), st2))
    (st3 : St)
    (haudio : save_audio_as env (tmpAudioPath (env.clock st.clockTick))
      (emit st2 (Ev.callAudio (tmpAudioPath (env.clock st.clockTick)))) =
      (.ok (), st3)) :
    ((tmpVideoPath (env.clock st.clockTick)).stem =
        "tmp_video_" ++ env.clock st.clockTick ∧
      (tmpAudioPath (env.clock st.clockTick)).stem =
        "tmp_audio_" ++ env.clock st.clockTick) ∧
    (save_as env target st).2.trace =
      Ev.run (muxCommand (tmpVideoPath (env.clock st.clockTick))
        (tmpAudioPath (env.clock st.clockTick)) target) :: st3.trace ∧
    (∃ Δa Δv, st3.trace =
      Δa ++ Ev.callAudio (tmpAudioPath (env.clock st.clockTick)) ::
        Δv ++ Ev.callVideo (tmpVideoPath (env.clock st.clockTick)) ::
          st.trace) ∧
    (env.px st3.pxTick ≠ 0 →
      (save_as env target st).1 = .error .calledProcessError) ∧
    (env.px st3.pxTick = 0 → (save_as env target st).1 = .ok ()) := by
  refine ⟨⟨rfl, rfl⟩, ?_, ?_, fun hpx => ?_, fun hpx => ?_⟩
  · simp only [save_as, hval, hvideo, haudio]
    exact runProcess_trace env _ target st3
  · obtain ⟨-, -, vΔ, vtr, -⟩ := save_video_as_spec env
      (tmpVideoPath (env.clock st.clockTick))
      (emit { st with clockTick := st.clockTick + 1 }
        (Ev.callVideo (tmpVideoPath (env.clock st.clockTick))))
    obtain ⟨-, -, aΔ, atr, -⟩ := save_audio_as_spec env
      (tmpAudioPath (env.clock st.clockTick))
      (emit st2 (Ev.callAudio (tmpAudioPath (env.clock st.clockTick))))
    rw [hvideo] at vtr
    rw [haudio] at atr
    dsimp only at vtr atr
    refine ⟨aΔ, vΔ, ?_⟩
    rw [atr]
    dsimp only [emit]
    rw [vtr]
    dsimp only [emit]
    simp
  · simp only [save_as, hval, hvideo, haudio,
      runProcess_nonzero env _ target st3 hpx]
  · simp only [save_as, hval, hvideo, haudio,
      runProcess_zero env _ target st3 hpx]

/-- Witness for C6 at concrete inputs: one video and one audio candidate,
distinct clock values (so the inner temp names differ from the outer ones),
all downloads succeeding and the mux exiting `0` make `save_as` succeed. -/
theorem claim_c6_witness :
    (save_as
      ⟨[⟨"video/webm", true, "vp9", "", 1080, 60, 0⟩,
        ⟨"audio/webm", true, "", "opus", 0, 0, 160⟩],
        fun i => toString i, fun _ => .success, fun _ => 0⟩
      ⟨"/o", "m", ".webm"⟩
      ⟨⟨["/app/src", "/o"], []⟩, 0, 0, 0, []⟩).1 = .ok () := by
  exact (claim_c6_combined_pipeline
    ⟨[⟨"video/webm", true, "vp9", "", 1080, 60, 0⟩,
      ⟨"audio/webm", true, "", "opus", 0, 0, 160⟩],
      fun i => toString i, fun _ => .success, fun _ => 0⟩
    ⟨⟨["/app/src", "/o"], []⟩, 0, 0, 0, []⟩
    ⟨"/o", "m", ".webm"⟩
    (by decide)
    ((save_video_as
      ⟨[⟨"video/webm", true, "vp9", "", 1080, 60, 0⟩,
        ⟨"audio/webm", true, "", "opus", 0, 0, 160⟩],
        fun i => toString i, fun _ => .success, fun _ => 0⟩
      (tmpVideoPath "0")
      (emit ⟨⟨["/app/src", "/o"], []⟩, 1, 0, 0, []⟩
        (Ev.callVideo (tmpVideoPath "0")))).2)
    (by decide)
    ((save_audio_as
      ⟨[⟨"video/webm", true, "vp9", "", 1080, 60, 0⟩,
        ⟨"audio/webm", true, "", "opus", 0, 0, 160⟩],
        fun i => toString i, fun _ => .success, fun _ => 0⟩
      (tmpAudioPath "0")
      (emit (save_video_as
        ⟨[⟨"video/webm", true, "vp9", "", 1080, 60, 0⟩,
          ⟨"audio/webm", true, "", "opus", 0, 0, 160⟩],
          fun i => toString i, fun _ => .success, fun _ => 0⟩
        (tmpVideoPath "0")
        (emit ⟨⟨["/app/src", "/o"], []⟩, 1, 0, 0, []⟩
          (Ev.callVideo (tmpVideoPath "0")))).2
        (Ev.callAudio (tmpAudioPath "0")))).2)
    (by decide)).2.2.2.2 rfl

/-- C7: inside `save_as`, the inner `save_video_as` call generates a fresh
timestamp for its own temp file; when the clock returns the same value for
the inner call as for `save_as`'s shared timestamp (both reads in the same
second), the inner temp path coincides with the rename target, the rename
is a self-rename, and the inner call's cleanup block then unlinks the
just-downloaded file: the inner call reports success, yet the mux step's
video input does not exist. -/
theorem claim_c7_timestamp_collision_self_rename (env : Env) (st : St)
    (hclk : env.clock (st.clockTick + 1) = env.clock st.clockTick)
    (hvalin : validate_target (tmpVideoPath (env.clock st.clockTick))
      [".webm"] st.fs = .ok ())
    (hcand : env.streams.filter check_if_dash_stream ≠ [])
    (hdl : env.dl st.dlTick = .success) :
    tmpVideoPath (env.clock
      ((emit { st with clockTick := st.clockTick + 1 }
        (Ev.callVideo (tmpVideoPath (env.clock st.clockTick)))).clockTick)) =
      tmpVideoPath (env.clock st.clockTick) ∧
    (save_video_as env (tmpVideoPath (env.clock st.clockTick))
      (emit { st with clockTick := st.clockTick + 1 }
        (Ev.callVideo (tmpVideoPath (env.clock st.clockTick))))).1 =
      .ok () ∧
    tmpVideoPath (env.clock st.clockTick) ∉
      (save_video_as env (tmpVideoPath (env.clock st.clockTick))
        (emit { st with clockTick := st.clockTick + 1 }
          (Ev.callVideo (tmpVideoPath (env.clock st.clockTick))))).2.fs.files := by
  obtain ⟨best, hsel⟩ : ∃ best,
      selectBest videoLe (env.streams.filter check_if_dash_stream)
        = some best := by
    rw [selectBest_eq_firstArgmaxBy]
    rcases hfa : firstArgmaxBy videoLe (env.streams.filter check_if_dash_stream)
      with _ | best
    · exact absurd ((firstArgmaxBy_eq_none_iff _ _).mp hfa) hcand
    · exact ⟨best, rfl⟩
  refine ⟨by rw [show (emit { st with clockTick := st.clockTick + 1 }
      (Ev.callVideo (tmpVideoPath (env.clock st.clockTick)))).clockTick =
      st.clockTick + 1 from rfl, hclk], ?_, ?_⟩
  · simp [save_video_as, hvalin, hsel, runDownload, hdl, hclk, fsRename,
      FS.create, emit]
  · simp only [save_video_as, hvalin, hsel, runDownload, hdl, hclk, emit]
    simp [fsRename, FS.create, FS.mem_unlink, FS.mem_create]

/-- Witness for C7 at concrete inputs: with a constant clock, the inner
video call of `save_as` succeeds but its output file (the outer temp path
`tmp_video_T.webm`) is absent afterwards. -/
theorem claim_c7_witness :
    ((save_video_as
        ⟨[⟨"video/webm", true, "vp9", "", 1080, 60, 0⟩],
          fun _ => "T", fun _ => .success, fun _ => 0⟩
        (tmpVideoPath "T")
        (emit ⟨⟨["/app/src", "/o"], []⟩, 1, 0, 0, []⟩
          (Ev.callVideo (tmpVideoPath "T")))).1 = .ok ()) ∧
    tmpVideoPath "T" ∉
      (save_video_as
        ⟨[⟨"video/webm", true, "vp9", "", 1080, 60, 0⟩],
          fun _ => "T", fun _ => .success, fun _ => 0⟩
        (tmpVideoPath "T")
        (emit ⟨⟨["/app/src", "/o"], []⟩, 1, 0, 0, []⟩
          (Ev.callVideo (tmpVideoPath "T")))).2.fs.files :=
  ⟨(claim_c7_timestamp_collision_self_rename
      ⟨[⟨"video/webm", true, "vp9", "", 1080, 60, 0⟩],
        fun _ => "T", fun _ => .success, fun _ => 0⟩
      ⟨⟨["/app/src", "/o"], []⟩, 0, 0, 0, []⟩
      rfl (by decide) (by decide) rfl).2.1,
   (claim_c7_timestamp_collision_self_rename
      ⟨[⟨"video/webm", true, "vp9", "", 1080, 60, 0⟩],
        fun _ => "T", fun _ => .success, fun _ => 0⟩
      ⟨⟨["/app/src", "/o"], []⟩, 0, 0, 0, []⟩
      rfl (by decide) (by decide) rfl).2.2⟩

/-- C10: with `--version` unset, `main` dispatches exhaustively on
`--audio_only`: when set it invokes the audio operation on the user's
target, otherwise the combined operation; and `save_video_as` is never
invoked on a user-supplied destination — every `callVideo` event in the
final trace not already present beforehand names a `tmp_video_<ts>.webm`
temp path of `save_as`. -/
theorem claim_c10_cli_dispatch (env : Env) (arguments : Args) (st : St)
    (hv : arguments.version = false) :
    (arguments.audio_only = true →
      main env arguments st =
        save_audio_as env arguments.target
          (emit st (.callAudio arguments.target))) ∧
    (arguments.audio_only = false →
      main env arguments st =
        save_as env arguments.target
          (emit st (.callCombined arguments.target))) ∧
    (∀ p, Ev.callVideo p ∈ (main env arguments st).2.trace →
      Ev.callVideo p ∈ st.trace ∨ isTmpVideo p) := by
  refine ⟨fun ha => by simp [main, hv, ha], fun ha => by simp [main, hv, ha],
    fun p hp => ?_⟩
  rcases ha : arguments.audio_only with _ | _
  · -- combined dispatch
    simp only [main, hv, Bool.false_eq_true, if_false, ha] at hp
    obtain ⟨-, -, Δ, htr, hkinds⟩ := save_as_spec env arguments.target
      (emit st (Ev.callCombined arguments.target))
    rw [htr] at hp
    rcases List.mem_append.mp hp with h' | h'
    · rcases hkinds _ h' with h'' | h'' | h'' | ⟨q, h''⟩ | ⟨a, h''⟩
      · exact Or.inr ⟨_, (Ev.callVideo.injEq _ _).mp h''⟩
      · cases h''
      · cases h''
      · cases h''
      · cases h''
    · rcases List.mem_cons.mp h' with h'' | h''
      · cases h''
      · exact Or.inl h''
  · -- audio dispatch
    simp only [main, hv, Bool.false_eq_true, if_false, ha, if_true] at hp
    obtain ⟨-, -, Δ, htr, hkinds⟩ := save_audio_as_spec env arguments.target
      (emit st (Ev.callAudio arguments.target))
    rw [htr] at hp
    rcases List.mem_append.mp hp with h' | h'
    · rcases hkinds _ h' with h'' | ⟨q, h''⟩ | ⟨a, h''⟩
      · cases h''
      · cases h''
      · cases h''
    · rcases List.mem_cons.mp h' with h'' | h''
      · cases h''
      · exact Or.inl h''

/-- Witness for C10 at concrete inputs: with `--version` unset, the
`--audio_only` dispatch goes to the audio operation and the default
dispatch goes to the combined operation. -/
theorem claim_c10_witness :
    (main ⟨[], fun _ => "T", fun _ => .success, fun _ => 0⟩
        ⟨"https://youtu.be/x", ⟨"/o", "m", ".mp3"⟩, true, false⟩
        ⟨⟨["/o"], []⟩, 0, 0, 0, []⟩ =
      save_audio_as ⟨[], fun _ => "T", fun _ => .success, fun _ => 0⟩
        ⟨"/o", "m", ".mp3"⟩
        (emit ⟨⟨["/o"], []⟩, 0, 0, 0, []⟩
          (.callAudio ⟨"/o", "m", ".mp3"⟩))) ∧
    (main ⟨[], fun _ => "T", fun _ => .success, fun _ => 0⟩
        ⟨"https://youtu.be/x", ⟨"/o", "m", ".webm"⟩, false, false⟩
        ⟨⟨["/o"], []⟩, 0, 0, 0, []⟩ =
      save_as ⟨[], fun _ => "T", fun _ => .success, fun _ => 0⟩
        ⟨"/o", "m", ".webm"⟩
        (emit ⟨⟨["/o"], []⟩, 0, 0, 0, []⟩
          (.callCombined ⟨"/o", "m", ".webm"⟩))) :=
  ⟨(claim_c10_cli_dispatch _ _ _ rfl).1 rfl,
   (claim_c10_cli_dispatch _ _ _ rfl).2.1 rfl⟩

end YTD
